import Mathlib

/-!
Shallow embedding of the retrieval pipeline of the csaf-walker repository
(crates `walker-common`, `csaf-walker`, `sbom-walker`, `walker-extras`),
together with proofs about the embedded operations.

Conventions of the embedding:
* machine integers become `Nat` (HTTP status codes, seconds, byte values);
* `Duration` and `SystemTime` become `Nat` seconds (since the UNIX epoch);
* raw bytes become `List Nat`; header values and URLs stay `String`;
* fallible Rust functions return `Except`/`Option`;
* the wall clock (`SystemTime::now()`) and the third-party HTTP-date parser
  (`httpdate::parse_http_date`) are passed in as explicit parameters;
* filesystem writes are modelled as the returned list of
  `(path, content)` pairs.
-/

namespace CsafWalker

/-- Shallow model of an HTTP response: the status code, the value of the
`Retry-After` header (when present), the body, and the `ETag` and
`Last-Modified` headers. -/
structure HttpResponse where
  status : Nat
  retryAfterHeader : Option String := none
  body : String := ""
  etag : Option String := none
  lastModified : Option String := none
deriving Repr, DecidableEq

/-- Rust `str::parse::<u64>`: an optional leading plus sign followed by a
non-empty run of ASCII digits whose value fits in 64 bits. -/
def parseU64 (s : String) : Option Nat :=
  let digits := match s.data with
    | '+' :: rest => rest
    | cs => cs
  if digits = [] then none
  else if digits.all Char.isDigit then
    let v := digits.foldl (fun acc c => acc * 10 + (c.toNat - '0'.toNat)) 0
    if v < 2 ^ 64 then some v else none
  else none

/-- From `src/common/src/http.rs`: the parsed form of a `Retry-After` header,
either delay seconds or an absolute time (seconds since the UNIX epoch). -/
inductive RetryAfter where
  | Duration (secs : Nat)
  | After (time : Nat)
deriving Repr, DecidableEq

/-- From `src/common/src/http.rs`, `parse_retry_after`: try the numeric form
first, then the HTTP-date form (delegated to the `httpdate` crate, passed
here as the parameter `httpdate`), else `none`. -/
def parse_retry_after (httpdate : String → Option Nat) (value : String) :
    Option RetryAfter :=
  match parseU64 value with
  | some seconds => some (.Duration seconds)
  | none =>
    match httpdate value with
    | some datetime => some (.After datetime)
    | none => none

/-- From `src/common/src/http.rs`, `calculate_retry_after_from_response_header`:
for a 429 response, parse the `Retry-After` header; a `Duration` is used as is,
an absolute time is converted with `checked_sub` against `now` (so a time not
later than `now` yields `none` at that step); any failure along the chain
falls back to `default_duration`.  For any other status the result is `none`. -/
def calculate_retry_after_from_response_header (httpdate : String → Option Nat)
    (response : HttpResponse) (defaultDuration : Nat) (now : Nat) : Option Nat :=
  if response.status = 429 then
    let retryAfter :=
      (response.retryAfterHeader.bind (parse_retry_after httpdate)).bind
        (fun retry =>
          match retry with
          | .Duration d => some d
          | .After after => if now ≤ after then some (after - now) else none)
    some (retryAfter.getD defaultDuration)
  else none

/-- An HTTP-date parser recognising exactly one fixed date string, mapping it
to 50 seconds past the epoch; used to exercise the date branch on concrete
inputs. -/
def httpdate50 : String → Option Nat :=
  fun s => if s = "Thu, 01 Jan 1970 00:00:50 GMT" then some 50 else none

/-- An HTTP-date parser that rejects every value. -/
def httpdateNone : String → Option Nat := fun _ => none

/-- C3, counterexample: the claim says a `Retry-After` HTTP-date in the past
yields zero (`max (0, target − now)`).  On a 429 response whose header parses
as an HTTP-date 50 s past the epoch, evaluated at `now = 100` with a default of
10 s, the code yields the configured default (10 s), not zero: `checked_sub`
returns `None` for a past date and the chain falls back to the default. -/
theorem c3_past_date_counterexample :
    calculate_retry_after_from_response_header httpdate50
      { status := 429, retryAfterHeader := some "Thu, 01 Jan 1970 00:00:50 GMT" }
      10 100 = some 10 ∧
    calculate_retry_after_from_response_header httpdate50
      { status := 429, retryAfterHeader := some "Thu, 01 Jan 1970 00:00:50 GMT" }
      10 100 ≠ some 0 := by
  constructor
  · decide
  · decide

/-- C3, amended: for every 429 response the computed retry-after duration is:
the integer value in seconds when the header is a non-negative integer;
otherwise `target − now` when the header parses as an HTTP-date not earlier
than `now`; otherwise the configured default when the header is absent,
unparsable, or parses as an HTTP-date strictly in the past.  For every non-429
response no duration is produced. -/
theorem c3_retry_after_computation (httpdate : String → Option Nat)
    (response : HttpResponse) (defaultDuration now : Nat) :
    (response.status ≠ 429 →
      calculate_retry_after_from_response_header httpdate response
        defaultDuration now = none) ∧
    (response.status = 429 →
      (∀ v n, response.retryAfterHeader = some v → parseU64 v = some n →
        calculate_retry_after_from_response_header httpdate response
          defaultDuration now = some n) ∧
      (∀ v t, response.retryAfterHeader = some v → parseU64 v = none →
        httpdate v = some t → now ≤ t →
        calculate_retry_after_from_response_header httpdate response
          defaultDuration now = some (t - now)) ∧
      (∀ v t, response.retryAfterHeader = some v → parseU64 v = none →
        httpdate v = some t → t < now →
        calculate_retry_after_from_response_header httpdate response
          defaultDuration now = some defaultDuration) ∧
      (response.retryAfterHeader = none →
        calculate_retry_after_from_response_header httpdate response
          defaultDuration now = some defaultDuration) ∧
      (∀ v, response.retryAfterHeader = some v → parseU64 v = none →
        httpdate v = none →
        calculate_retry_after_from_response_header httpdate response
          defaultDuration now = some defaultDuration)) := by
  constructor
  · intro h
    simp [calculate_retry_after_from_response_header, h]
  · intro h429
    refine ⟨?_, ?_, ?_, ?_, ?_⟩
    · intro v n hv hn
      simp [calculate_retry_after_from_response_header, h429, hv,
        parse_retry_after, hn]
    · intro v t hv hn ht hle
      simp [calculate_retry_after_from_response_header, h429, hv,
        parse_retry_after, hn, ht, hle]
    · intro v t hv hn ht hlt
      simp [calculate_retry_after_from_response_header, h429, hv,
        parse_retry_after, hn, ht, Nat.not_le.mpr hlt]
    · intro hv
      simp [calculate_retry_after_from_response_header, h429, hv]
    · intro v hv hn ht
      simp [calculate_retry_after_from_response_header, h429, hv,
        parse_retry_after, hn, ht]

/-- C3, witness: the amended theorem applied at concrete inputs — the numeric
form, the future-date form, the past-date form, and the absent header. -/
theorem c3_retry_after_computation_witness :
    calculate_retry_after_from_response_header httpdateNone
      { status := 429, retryAfterHeader := some "7" } 10 100 = some 7 ∧
    calculate_retry_after_from_response_header httpdate50
      { status := 429, retryAfterHeader := some "Thu, 01 Jan 1970 00:00:50 GMT" }
      10 20 = some 30 ∧
    calculate_retry_after_from_response_header httpdate50
      { status := 429, retryAfterHeader := some "Thu, 01 Jan 1970 00:00:50 GMT" }
      10 100 = some 10 ∧
    calculate_retry_after_from_response_header httpdateNone
      { status := 429, retryAfterHeader := none } 10 100 = some 10 ∧
    calculate_retry_after_from_response_header httpdateNone
      { status := 200, retryAfterHeader := some "7" } 10 100 = none := by
  refine ⟨?_, ?_, ?_, ?_, ?_⟩
  · exact ((c3_retry_after_computation httpdateNone
      { status := 429, retryAfterHeader := some "7" } 10 100).2 rfl).1
      "7" 7 rfl (by decide)
  · exact (((c3_retry_after_computation httpdate50
      { status := 429, retryAfterHeader := some "Thu, 01 Jan 1970 00:00:50 GMT" }
      10 20).2 rfl).2.1
      "Thu, 01 Jan 1970 00:00:50 GMT" 50 rfl (by decide) (by decide) (by decide))
  · exact (((c3_retry_after_computation httpdate50
      { status := 429, retryAfterHeader := some "Thu, 01 Jan 1970 00:00:50 GMT" }
      10 100).2 rfl).2.2.1
      "Thu, 01 Jan 1970 00:00:50 GMT" 50 rfl (by decide) (by decide) (by decide))
  · exact (((c3_retry_after_computation httpdateNone
      { status := 429, retryAfterHeader := none } 10 100).2 rfl).2.2.2.1 rfl)
  · exact (c3_retry_after_computation httpdateNone
      { status := 200, retryAfterHeader := some "7" } 10 100).1 (by decide)

/-- Error type of `walker_common::fetcher`.  The enum in
`src/common/src/fetcher/mod.rs` declares only `Request` and `RateLimited`;
the `ClientError` variant is the one constructed and matched by the crate's
own tests (`src/common/tests/fetcher.rs`) and callers
(`src/csaf/src/visitors/store.rs`), and is included here so that those call
sites are representable.  The fetch loop below — translated from `mod.rs` —
never produces it. -/
inductive FetchError where
  | Request (status : Nat)
  | RateLimited (retryAfter : Nat)
  | ClientError (status : Nat)
deriving Repr, DecidableEq

/-- Modelled from the spec: the `Data` implementation for `String`
(`src/common/src/fetcher/data.rs` is not present in the tree).  It applies
`Response::error_for_status` — which fails on every 4xx/5xx status — and then
returns the body; the only error channel `DataProcessor::process` offers is
`reqwest::Error`, modelled as the offending status code. -/
def stringProcessor (response : HttpResponse) : Except Nat String :=
  if 400 ≤ response.status ∧ response.status ≤ 599 then .error response.status
  else .ok response.body

/-- Modelled from the spec: the `Data` implementation for `Option<T>`
(`src/common/src/fetcher/data.rs` is not present in the tree): a 404 response
yields `none` and any other response defers to the inner implementation. -/
def optionProcessor (response : HttpResponse) : Except Nat (Option String) :=
  if response.status = 404 then .ok none
  else (stringProcessor response).map some

/-- From `src/common/src/fetcher/mod.rs`, `Fetcher::fetch_once`: perform the
request, return `RateLimited` when the 429 check produces a retry-after
duration, and otherwise hand the response to the processor, wrapping a
processor failure as a `Request` error. -/
def fetch_once (httpdate : String → Option Nat) (defaultRetryAfter now : Nat)
    (processor : HttpResponse → Except Nat α) (response : HttpResponse) :
    Except FetchError α :=
  match calculate_retry_after_from_response_header httpdate response
      defaultRetryAfter now with
  | some retryAfter => .error (.RateLimited retryAfter)
  | none =>
    match processor response with
    | .ok v => .ok v
    | .error status => .error (.Request status)

/-- The backon retry driver as configured in `Fetcher::fetch_processed`:
`retry(&backoff.with_max_times(retries))` with no `when` filter, so every
error counts as retryable (backon's default).  `attempt i` is the i-th
attempt, `remaining` the retries still allowed; the result is paired with the
number of attempts performed. -/
def retryAll (attempt : Nat → Except FetchError α) :
    Nat → Nat → Except FetchError α × Nat
  | 0, i =>
    match attempt i with
    | .ok v => (.ok v, 1)
    | .error e => (.error e, 1)
  | r + 1, i =>
    match attempt i with
    | .ok v => (.ok v, 1)
    | .error _ =>
      let next := retryAll attempt r (i + 1)
      (next.1, next.2 + 1)

/-- From `src/common/src/fetcher/mod.rs`, `Fetcher::fetch_processed`:
run `fetch_once` against successive responses of `server` under the retry
driver, with `retries` as the maximum number of retries. -/
def fetch_processed (httpdate : String → Option Nat)
    (retries defaultRetryAfter now : Nat)
    (processor : HttpResponse → Except Nat α) (server : Nat → HttpResponse) :
    Except FetchError α × Nat :=
  retryAll (fun i => fetch_once httpdate defaultRetryAfter now processor (server i))
    retries 0

/-- `Fetcher::fetch::<String>`: `fetch_processed` with the typed processor for
`String`. -/
def fetchString (httpdate : String → Option Nat)
    (retries defaultRetryAfter now : Nat) (server : Nat → HttpResponse) :
    Except FetchError String × Nat :=
  fetch_processed httpdate retries defaultRetryAfter now stringProcessor server

/-- `Fetcher::fetch::<Option<String>>`: `fetch_processed` with the typed
processor for `Option<String>`. -/
def fetchOptional (httpdate : String → Option Nat)
    (retries defaultRetryAfter now : Nat) (server : Nat → HttpResponse) :
    Except FetchError (Option String) × Nat :=
  fetch_processed httpdate retries defaultRetryAfter now optionProcessor server

/-- When every attempt fails, the retry driver performs `remaining + 1`
attempts and returns the last error. -/
theorem retryAll_all_fail (attempt : Nat → Except FetchError α)
    (e : Nat → FetchError) (h : ∀ j, attempt j = .error (e j)) :
    ∀ remaining i, retryAll attempt remaining i = (.error (e (i + remaining)), remaining + 1) := by
  intro remaining
  induction remaining with
  | zero => intro i; simp [retryAll, h i]
  | succ r ih =>
    intro i
    simp only [retryAll, h i]
    rw [ih (i + 1)]
    have harith : i + 1 + r = i + (r + 1) := by omega
    rw [harith]

/-- When the first success is the k-th attempt (counting from the start index)
and at most `remaining` retries are allowed, the retry driver performs exactly
`k + 1` attempts and succeeds. -/
theorem retryAll_first_success (attempt : Nat → Except FetchError α) (v : α) :
    ∀ k remaining i, k ≤ remaining →
      (∀ j, j < k → ∃ err, attempt (i + j) = .error err) →
      attempt (i + k) = .ok v →
      retryAll attempt remaining i = (.ok v, k + 1) := by
  intro k
  induction k with
  | zero =>
    intro remaining i _ _ hsucc
    simp only [Nat.add_zero] at hsucc
    cases remaining <;> simp [retryAll, hsucc]
  | succ n ih =>
    intro remaining i hk hfail hsucc
    obtain ⟨r, rfl⟩ : ∃ r, remaining = r + 1 :=
      ⟨remaining - 1, by omega⟩
    obtain ⟨err, herr⟩ := hfail 0 (Nat.succ_pos n)
    simp only [Nat.add_zero] at herr
    simp only [retryAll, herr]
    rw [ih r (i + 1) (by omega)
      (fun j hj => by
        obtain ⟨err', herr'⟩ := hfail (j + 1) (by omega)
        exact ⟨err', by simpa [Nat.add_assoc, Nat.add_comm 1 j] using herr'⟩)
      (by simpa [Nat.add_assoc, Nat.add_comm 1 n] using hsucc)]

/-- A server that answers 404 to every request. -/
def server404 : Nat → HttpResponse := fun _ => { status := 404, body := "Not found" }

/-- A server that answers 500 to every request. -/
def server500 : Nat → HttpResponse := fun _ => { status := 500, body := "Server error" }

/-- A server that answers 500 to the first `k` requests and 200 afterwards. -/
def serverFailUntil (k : Nat) : Nat → HttpResponse := fun i =>
  if i < k then { status := 500, body := "Server error" }
  else { status := 200, body := "Success" }

/-- C1: the fetch loop of `src/common/src/fetcher/mod.rs` does not special-case
404 for non-optional results.  With `retries = 2` against a permanently-404
server, `fetch::<String>` performs three attempts (the 404-induced error is
retried like any other, since no `when` filter is installed) and returns a
`Request` error — the `ClientError(404)` outcome asserted by the claim and by
the crate's own test `test_404_should_not_retry` is impossible, the enum
variant not being produced anywhere in the fetch path.  Only the optional half
of the claim holds: `fetch::<Option<String>>` yields `none` after exactly one
attempt. -/
theorem c1_404_not_special_cased :
    fetchString httpdateNone 2 10 0 server404 = (.error (.Request 404), 3) ∧
    (∀ s, fetchString httpdateNone 2 10 0 server404 ≠ (.error (.ClientError s), 1)) ∧
    fetchOptional httpdateNone 2 10 0 server404 = (.ok none, 1) := by
  refine ⟨by rfl, ?_, by rfl⟩
  intro s h
  have h3 : fetchString httpdateNone 2 10 0 server404 = (.error (.Request 404), 3) := by
    rfl
  rw [h3] at h
  have := congrArg Prod.snd h
  simp at this

/-- C4: with `retries = N`, a permanently-5xx endpoint is attempted exactly
`N + 1` times and the fetch returns the error; if the server stops failing at
attempt `k ≤ N + 1` (it answers 500 to the first `k − 1` requests and 200
afterwards), the fetch succeeds after exactly `k` attempts. -/
theorem c4_5xx_retry_exhaustion (N : Nat) :
    fetchString httpdateNone N 10 0 server500 = (.error (.Request 500), N + 1) ∧
    (∀ k, 1 ≤ k → k ≤ N + 1 →
      fetchString httpdateNone N 10 0 (serverFailUntil (k - 1)) = (.ok "Success", k)) := by
  constructor
  · have h := retryAll_all_fail
      (fun i => fetch_once httpdateNone 10 0 stringProcessor (server500 i))
      (fun _ => .Request 500) (fun _ => rfl) N 0
    simpa [fetchString, fetch_processed] using h
  · intro k hk1 hkN
    have h := retryAll_first_success
      (fun i => fetch_once httpdateNone 10 0 stringProcessor (serverFailUntil (k - 1) i))
      "Success" (k - 1) N 0 (by omega)
      (fun j hj => ⟨.Request 500, by
        simp only [Nat.zero_add]
        have : serverFailUntil (k - 1) j = { status := 500, body := "Server error" } := by
          simp [serverFailUntil, hj]
        simp [fetch_once, this, calculate_retry_after_from_response_header,
          stringProcessor]⟩)
      (by
        simp only [Nat.zero_add]
        have : serverFailUntil (k - 1) (k - 1) = { status := 200, body := "Success" } := by
          simp [serverFailUntil]
        simp [fetch_once, this, calculate_retry_after_from_response_header,
          stringProcessor])
    have hk : k - 1 + 1 = k := by omega
    simpa [fetchString, fetch_processed, hk] using h

/-- C4, witness: `retries = 5` against a permanently-500 server gives six
attempts; a server that recovers at the third attempt gives success after
exactly three attempts. -/
theorem c4_5xx_retry_exhaustion_witness :
    fetchString httpdateNone 5 10 0 server500 = (.error (.Request 500), 6) ∧
    fetchString httpdateNone 5 10 0 (serverFailUntil 2) = (.ok "Success", 3) := by
  refine ⟨(c4_5xx_retry_exhaustion 5).1, ?_⟩
  exact (c4_5xx_retry_exhaustion 5).2 3 (by decide) (by decide)

/-- From `src/common/src/fetcher/mod.rs`, the `notify` closure of
`fetch_processed`: when the error is `RateLimited(retry_after)` and the
backoff-chosen delay is smaller, sleep the difference in addition; otherwise
add nothing. -/
def fetcher_notify_extra_wait (dur retryAfter : Nat) : Nat :=
  if dur < retryAfter then retryAfter - dur else 0

/-- The total pre-retry wait of the fetcher loop on a rate-limited error: the
extra sleep performed by the notify closure plus the backoff-chosen delay
slept by the retry driver itself. -/
def fetcher_total_wait (dur retryAfter : Nat) : Nat :=
  fetcher_notify_extra_wait dur retryAfter + dur

/-- From `src/extras/src/visitors/send/mod.rs`: the error type of the send
visitor.  `Sender` and `Request` carry transport-level failures. -/
inductive SendError where
  | Sender (msg : String)
  | Request (msg : String)
  | Client (status : Nat)
  | Server (status : Nat)
  | UnexpectedStatus (status : Nat)
  | RateLimited (retryAfter : Nat)
deriving Repr, DecidableEq

/-- From `src/extras/src/visitors/send/mod.rs`: a send error classified as
temporary (retried) or permanent (not retried). -/
inductive SendOnceError where
  | Temporary (e : SendError)
  | Permanent (e : SendError)
deriving Repr, DecidableEq

/-- The retryability test installed by `SendVisitor::send` via
`when(|e| matches!(e, SendOnceError::Temporary(_)))`. -/
def SendOnceError.isTemporary : SendOnceError → Bool
  | .Temporary _ => true
  | .Permanent _ => false

/-- From the `From<SendOnceError> for SendError` impl: strip the
classification wrapper. -/
def SendOnceError.toSendError : SendOnceError → SendError
  | .Temporary e => e
  | .Permanent e => e

/-- From `src/extras/src/visitors/send/mod.rs`, the `adjust` closure of
`SendVisitor::send`: on a temporary rate-limited error, keep the
backoff-chosen delay only when it exceeds the server-directed retry-after,
otherwise use the retry-after; on any other error keep the backoff delay. -/
def send_adjust (e : SendOnceError) (dur : Option Nat) : Option Nat :=
  match e with
  | .Temporary (.RateLimited retryAfter) =>
    match dur with
    | some durValue => if durValue > retryAfter then some durValue else some retryAfter
    | none => some retryAfter
  | _ => dur

/-- C2: for every backoff-chosen delay and retry-after value, the effective
pre-retry wait is their maximum, in both retry loops: the fetcher's notify
closure tops the backoff delay up to the retry-after (never shortening it),
and the send visitor's adjust closure replaces the delay by the larger of the
two.  The last conjunct shows a 429 response carrying `Retry-After: 30`
produces a rate-limited error carrying exactly 30 seconds. -/
theorem c2_retry_after_floor (dur retryAfter : Nat) :
    fetcher_total_wait dur retryAfter = max dur retryAfter ∧
    retryAfter ≤ fetcher_total_wait dur retryAfter ∧
    send_adjust (.Temporary (.RateLimited retryAfter)) (some dur) =
      some (max dur retryAfter) ∧
    fetch_once httpdateNone 10 0 stringProcessor
      { status := 429, retryAfterHeader := some "30" } =
      (.error (.RateLimited 30) : Except FetchError String) := by
  refine ⟨?_, ?_, ?_, rfl⟩
  · simp only [fetcher_total_wait, fetcher_notify_extra_wait, Nat.max_def]
    split <;> split <;> omega
  · simp only [fetcher_total_wait, fetcher_notify_extra_wait]
    split <;> omega
  · by_cases h : retryAfter < dur
    · have hmax : max dur retryAfter = dur := Nat.max_eq_left (Nat.le_of_lt h)
      simp [send_adjust, h, hmax]
    · have hle : dur ≤ retryAfter := Nat.not_lt.mp h
      have hmax : max dur retryAfter = retryAfter := Nat.max_eq_right hle
      simp [send_adjust, Nat.not_lt.mp h, hmax, Nat.not_lt.mpr hle]

/-- Modelled from the backon crate: `ExponentialBuilder::default()` caps the
number of retries at three (`max_times: Some(3)`). -/
def backonDefaultMaxTimes : Nat := 3

/-- From `SendVisitor::send`: `with_max_times(self.retries)` is applied only
when the configured retry count is positive; otherwise backon's default cap
governs the policy. -/
def sendPolicyMaxTimes (retries : Nat) : Nat :=
  if 0 < retries then retries else backonDefaultMaxTimes

/-- From `src/extras/src/visitors/send/mod.rs`, `SendVisitor::send_once`:
429 responses become temporary rate-limited errors; 2xx succeeds; 4xx is a
permanent client error; 5xx a temporary server error; anything else a
permanent unexpected-status error. -/
def send_once (httpdate : String → Option Nat) (defaultRetryAfter now : Nat)
    (response : HttpResponse) : Except SendOnceError Unit :=
  match calculate_retry_after_from_response_header httpdate response
      defaultRetryAfter now with
  | some retryAfter => .error (.Temporary (.RateLimited retryAfter))
  | none =>
    if 200 ≤ response.status ∧ response.status ≤ 299 then .ok ()
    else if 400 ≤ response.status ∧ response.status ≤ 499 then
      .error (.Permanent (.Client response.status))
    else if 500 ≤ response.status ∧ response.status ≤ 599 then
      .error (.Temporary (.Server response.status))
    else .error (.Permanent (.UnexpectedStatus response.status))

/-- The backon retry driver as configured in `SendVisitor::send`: only errors
matching the `when` filter (temporary ones) are retried. -/
def retryWhen (attempt : Nat → Except SendOnceError Unit) :
    Nat → Nat → Except SendOnceError Unit × Nat
  | 0, i =>
    match attempt i with
    | .ok v => (.ok v, 1)
    | .error e => (.error e, 1)
  | r + 1, i =>
    match attempt i with
    | .ok v => (.ok v, 1)
    | .error e =>
      if e.isTemporary then
        let next := retryWhen attempt r (i + 1)
        (next.1, next.2 + 1)
      else (.error e, 1)

/-- From `src/extras/src/visitors/send/mod.rs`, `SendVisitor::send`: run
`send_once` against successive responses of `server` under the retry driver,
whose retry cap comes from `sendPolicyMaxTimes`. -/
def send (httpdate : String → Option Nat) (retries defaultRetryAfter now : Nat)
    (server : Nat → HttpResponse) : Except SendError Unit × Nat :=
  let result := retryWhen
    (fun i => send_once httpdate defaultRetryAfter now (server i))
    (sendPolicyMaxTimes retries) 0
  (result.1.mapError SendOnceError.toSendError, result.2)

/-- When every attempt fails with a temporary error, the send retry driver
performs `remaining + 1` attempts and returns the last error. -/
theorem retryWhen_all_temporary (attempt : Nat → Except SendOnceError Unit)
    (e : Nat → SendOnceError) (h : ∀ j, attempt j = .error (e j))
    (htemp : ∀ j, (e j).isTemporary = true) :
    ∀ remaining i, retryWhen attempt remaining i = (.error (e (i + remaining)), remaining + 1) := by
  intro remaining
  induction remaining with
  | zero => intro i; simp [retryWhen, h i]
  | succ r ih =>
    intro i
    simp only [retryWhen, h i, htemp i, if_pos]
    rw [ih (i + 1)]
    have harith : i + 1 + r = i + (r + 1) := by omega
    rw [harith]

/-- A server that answers 429 (without a `Retry-After` header) to every
request. -/
def server429 : Nat → HttpResponse := fun _ => { status := 429, body := "Rate limited" }

/-- C10: the send visitor's retry cap is never zero.  `SendVisitor::new` sets
`retries = 0`, and `send` applies `with_max_times` only when `retries > 0`,
so backon's default cap (three retries) governs: a permanently-5xx or
permanently-429 upload is attempted `sendPolicyMaxTimes retries + 1` times,
which is at least two for every configuration, and exactly four when
`retries = 0` — no configuration attempts a temporary error exactly once. -/
theorem c10_send_retries_never_zero (retries : Nat) :
    (send httpdateNone retries 10 0 server500).2 = sendPolicyMaxTimes retries + 1 ∧
    2 ≤ (send httpdateNone retries 10 0 server500).2 ∧
    (retries = 0 → (send httpdateNone retries 10 0 server500).2 = 4) ∧
    (send httpdateNone retries 10 0 server429).2 = sendPolicyMaxTimes retries + 1 := by
  have h500 := retryWhen_all_temporary
    (fun i => send_once httpdateNone 10 0 (server500 i))
    (fun _ => .Temporary (.Server 500)) (fun _ => rfl) (fun _ => rfl)
    (sendPolicyMaxTimes retries) 0
  have h429 := retryWhen_all_temporary
    (fun i => send_once httpdateNone 10 0 (server429 i))
    (fun _ => .Temporary (.RateLimited 10)) (fun _ => rfl) (fun _ => rfl)
    (sendPolicyMaxTimes retries) 0
  have hpos : 1 ≤ sendPolicyMaxTimes retries := by
    simp only [sendPolicyMaxTimes, backonDefaultMaxTimes]
    split <;> omega
  refine ⟨?_, ?_, ?_, ?_⟩
  · simp [send, h500]
  · simp only [send, h500]
    omega
  · intro h0
    subst h0
    rfl
  · simp [send, h429]

/-- C10, witness: the theorem applied at `retries = 0` — the configuration
produced by `SendVisitor::new` — shows four attempts against a permanently
failing upload target. -/
theorem c10_send_retries_never_zero_witness :
    (send httpdateNone 0 10 0 server500).2 = 4 ∧
    2 ≤ (send httpdateNone 0 10 0 server429).2 := by
  constructor
  · exact (c10_send_retries_never_zero 0).2.2.1 rfl
  · have h := (c10_send_retries_never_zero 0).2.2.2
    rw [h]
    decide

/-- From `src/csaf/src/discover.rs` (via its uses in
`src/csaf/src/visitors/store.rs`): a discovered advisory, carrying the URL of
its distribution context and its own URL. -/
structure DiscoveredAdvisory where
  contextUrl : String
  url : String
deriving Repr, DecidableEq

/-- A retrieved advisory as consumed by `StoreVisitor::store_advisory`: the
discovered fields plus the raw document bytes (kept as a string standing for
the byte sequence). -/
structure RetrievedAdvisory where
  contextUrl : String
  url : String
  data : String
deriving Repr, DecidableEq

/-- From `src/sbom/src/source/http.rs` (the CSAF twin has the same shape):
the error type of an HTTP source. -/
inductive HttpSourceError where
  | Fetcher (e : FetchError)
  | Url
  | Csv
deriving Repr, DecidableEq

/-- The source error behind `RetrievalError::Source` for an arbitrary source:
the store visitor downcasts it to `HttpSourceError` through `dyn Any`, which
succeeds only when the concrete type matches; `other` stands for an error of
any different source type (for which the downcast fails). -/
inductive AnySourceError where
  | http (e : HttpSourceError)
  | other (msg : String)
deriving Repr, DecidableEq

/-- From `walker_common::retrieve` as matched in
`src/csaf/src/visitors/store.rs`: a retrieval error carrying the discovered
advisory it belongs to. -/
inductive RetrievalError where
  | Source (discovered : DiscoveredAdvisory) (err : AnySourceError)
deriving Repr, DecidableEq

/-- The discovered advisory carried by a retrieval error
(`RetrievalError::discovered`). -/
def RetrievalError.discovered : RetrievalError → DiscoveredAdvisory
  | .Source d _ => d

/-- From `walker_common::store` as used in `src/csaf/src/visitors/store.rs`:
store-side failures. -/
inductive StoreError where
  | Filename (url : String)
  | Io (msg : String)
  | SerializeKey
deriving Repr, DecidableEq

/-- From `src/csaf/src/visitors/store.rs`: the error type of the store
visitor when acting on retrieved advisories. -/
inductive StoreRetrievedError where
  | Store (e : StoreError)
  | Retrieval (e : RetrievalError)
deriving Repr, DecidableEq

/-- The upper-case hexadecimal digit for a value below 16. -/
def pctHexDigit (n : Nat) : Char :=
  if n < 10 then Char.ofNat ('0'.toNat + n) else Char.ofNat ('A'.toNat + (n - 10))

/-- Percent-encoding of one byte under the `NON_ALPHANUMERIC` set of the
`percent-encoding` crate: ASCII alphanumeric bytes stay, every other byte
becomes a percent escape. -/
def pctEncodeChar (c : Char) : List Char :=
  if c.isAlphanum then [c]
  else ['%', pctHexDigit (c.toNat / 16), pctHexDigit (c.toNat % 16)]

/-- Modelled from the spec (the helper lives in `csaf::model::store`, which is
not under `src/`, and is exercised by `src/csaf/tests/store-visitor.rs`):
`utf8_percent_encode(s, NON_ALPHANUMERIC)` over an ASCII string — every
non-alphanumeric byte is percent-encoded. -/
def utf8_percent_encode (s : String) : String :=
  String.mk (s.data.map pctEncodeChar).flatten

/-- Modelled from the spec: `distribution_base` joins the store base with the
percent-encoded distribution URL (path components joined with a slash). -/
def distribution_base (base distributionUrl : String) : String :=
  base ++ "/" ++ utf8_percent_encode distributionUrl

/-- Modelled from the `url` crate's `Url::make_relative` for the case the
store visitor relies on: when the document URL extends the distribution URL
the remainder is returned, otherwise the URL cannot be made relative and the
result is `none`. -/
def make_relative (base url : String) : Option String :=
  if base.data.isPrefixOf url.data then some (String.mk (url.data.drop base.data.length))
  else none

/-- Modelled from the spec: `store_document` (in `walker_common::store`, not
under `src/`) writes the document bytes verbatim at the given path; only the
main document write is modelled here. -/
def store_document (file : String) (data : String) : List (String × String) :=
  [(file, data)]

/-- The serialized `ErrorData { status_code }` value, exactly as the test
`src/csaf/tests/store-visitor.rs` asserts it on disk. -/
def error_file_content (statusCode : Nat) : String :=
  "\x7b\"status_code\":" ++ toString statusCode ++ "\x7d"

/-- Modelled from the spec: `store_errors` (in `walker_common::store`, not
under `src/`) writes the serialized error data to the sidecar path
`<file>.errors`. -/
def store_errors (file : String) (statusCode : Nat) : List (String × String) :=
  [(file ++ ".errors", error_file_content statusCode)]

/-- From `src/csaf/src/visitors/store.rs`,
`StoreVisitor::get_client_error_status_code`: the status is produced exactly
when the source error downcasts to `HttpSourceError` and is
`Fetcher(ClientError(status))`. -/
def get_client_error_status_code : RetrievalError → Option Nat
  | .Source _ err =>
    match err with
    | .http (.Fetcher (.ClientError status)) => some status
    | _ => none

/-- From `src/csaf/src/visitors/store.rs`, `StoreVisitor::store_advisory`:
make the document URL relative to the distribution URL (failing with a
filename error when impossible), and store the document bytes under
`<base>/<pct-encoded distribution URL>/<name>`. -/
def store_advisory (base : String) (advisory : RetrievedAdvisory) :
    Except StoreError (List (String × String)) :=
  match make_relative advisory.contextUrl advisory.url with
  | none => .error (.Filename advisory.url)
  | some name =>
    .ok (store_document (distribution_base base advisory.contextUrl ++ "/" ++ name)
      advisory.data)

/-- From `src/csaf/src/visitors/store.rs`, `StoreVisitor::store_error`:
make the document URL relative to the distribution URL (failing with a
filename error when impossible), and record the error data in the `.errors`
sidecar next to where the document would have been stored. -/
def StoreVisitor.store_error (base : String) (statusCode : Nat)
    (discovered : DiscoveredAdvisory) : Except StoreError (List (String × String)) :=
  match make_relative discovered.contextUrl discovered.url with
  | none => .error (.Filename discovered.url)
  | some name =>
    .ok (store_errors (distribution_base base discovered.contextUrl ++ "/" ++ name)
      statusCode)

/-- From `src/csaf/src/visitors/store.rs`, `StoreVisitor::visit_advisory`
(`RetrievedVisitor` impl): store a retrieved advisory; on a retrieval error,
record an error file and continue only when the underlying status is a client
error contained in the allowed set, otherwise return the retrieval error.
The returned list holds the filesystem writes performed. -/
def StoreVisitor.visit_advisory (allowedClientErrors : List Nat) (base : String)
    (result : Except RetrievalError RetrievedAdvisory) :
    Except StoreRetrievedError (List (String × String)) :=
  match result with
  | .ok advisory => (store_advisory base advisory).mapError .Store
  | .error err =>
    match get_client_error_status_code err with
    | some status =>
      if status ∈ allowedClientErrors then
        (StoreVisitor.store_error base status err.discovered).mapError .Store
      else .error (.Retrieval err)
    | none => .error (.Retrieval err)

/-- C6: for every advisory whose URL extends its distribution context URL,
`store_advisory` writes exactly one file, at
`<base>/<pct-encoded distribution URL>/<name>` where `name` is the document
URL made relative to the distribution URL, with content byte-identical to the
retrieved data; when the URL cannot be made relative, storing fails with a
filename error. -/
theorem c6_store_advisory_layout (base : String) (advisory : RetrievedAdvisory) :
    (∀ name, make_relative advisory.contextUrl advisory.url = some name →
      store_advisory base advisory =
        .ok [(base ++ "/" ++ utf8_percent_encode advisory.contextUrl ++ "/" ++ name,
          advisory.data)]) ∧
    (make_relative advisory.contextUrl advisory.url = none →
      store_advisory base advisory = .error (.Filename advisory.url)) := by
  constructor
  · intro name h
    simp [store_advisory, h, store_document, distribution_base]
  · intro h
    simp [store_advisory, h]

/-- C6, witness: the S6 scenario — a document at
`https://example.com/advisories/test-2024-001.json` in the distribution
`https://example.com/advisories/` is stored under the percent-encoded
distribution directory with its exact bytes. -/
theorem c6_store_advisory_layout_witness :
    store_advisory "/base"
      { contextUrl := "https://example.com/advisories/",
        url := "https://example.com/advisories/test-2024-001.json",
        data := "test advisory content" } =
      .ok [("/base/https%3A%2F%2Fexample%2Ecom%2Fadvisories%2F/test-2024-001.json",
        "test advisory content")] := by
  have h := (c6_store_advisory_layout "/base"
    { contextUrl := "https://example.com/advisories/",
      url := "https://example.com/advisories/test-2024-001.json",
      data := "test advisory content" }).1
    "test-2024-001.json" (by decide)
  exact h.trans (by rfl)

/-- C5: for a retrieval error whose underlying status is a client error in
the allowed set, the store visitor writes exactly the `<name>.errors` sidecar
containing the JSON error data and succeeds; a client error outside the set,
and every error whose status cannot be extracted (rate limited, transport, or
a non-HTTP source error), is returned unchanged with no file written. -/
theorem c5_allowed_client_errors (allowedClientErrors : List Nat) (base : String)
    (d : DiscoveredAdvisory) (status : Nat) :
    (∀ name, make_relative d.contextUrl d.url = some name →
      status ∈ allowedClientErrors →
      StoreVisitor.visit_advisory allowedClientErrors base
        (.error (.Source d (.http (.Fetcher (.ClientError status))))) =
        .ok [(base ++ "/" ++ utf8_percent_encode d.contextUrl ++ "/" ++ name ++ ".errors",
          error_file_content status)]) ∧
    (status ∉ allowedClientErrors →
      StoreVisitor.visit_advisory allowedClientErrors base
        (.error (.Source d (.http (.Fetcher (.ClientError status))))) =
        .error (.Retrieval (.Source d (.http (.Fetcher (.ClientError status)))))) ∧
    (∀ err, get_client_error_status_code err = none →
      StoreVisitor.visit_advisory allowedClientErrors base (.error err) =
        .error (.Retrieval err)) := by
  refine ⟨?_, ?_, ?_⟩
  · intro name hname hmem
    simp [StoreVisitor.visit_advisory, get_client_error_status_code, hmem,
      StoreVisitor.store_error, RetrievalError.discovered, hname, store_errors,
      distribution_base, Except.mapError]
  · intro hmem
    simp [StoreVisitor.visit_advisory, get_client_error_status_code, hmem]
  · intro err herr
    simp [StoreVisitor.visit_advisory, herr]

/-- C5, witness: with `allow = {404}` the visitor writes the
`test-2024-001.json.errors` sidecar containing exactly
`\x7b"status_code":404\x7d` and succeeds; without the allowance the same 404
is returned as a retrieval error; a rate-limited error is always returned
unchanged. -/
theorem c5_allowed_client_errors_witness :
    StoreVisitor.visit_advisory [404] "/base"
      (.error (.Source
        { contextUrl := "https://example.com/advisories/",
          url := "https://example.com/advisories/test-2024-001.json" }
        (.http (.Fetcher (.ClientError 404))))) =
      .ok [("/base/https%3A%2F%2Fexample%2Ecom%2Fadvisories%2F/test-2024-001.json.errors",
        "\x7b\"status_code\":404\x7d")] ∧
    StoreVisitor.visit_advisory [] "/base"
      (.error (.Source
        { contextUrl := "https://example.com/advisories/",
          url := "https://example.com/advisories/test-2024-001.json" }
        (.http (.Fetcher (.ClientError 404))))) =
      .error (.Retrieval (.Source
        { contextUrl := "https://example.com/advisories/",
          url := "https://example.com/advisories/test-2024-001.json" }
        (.http (.Fetcher (.ClientError 404))))) ∧
    StoreVisitor.visit_advisory [404] "/base"
      (.error (.Source
        { contextUrl := "https://example.com/advisories/",
          url := "https://example.com/advisories/test-2024-001.json" }
        (.http (.Fetcher (.RateLimited 3600))))) =
      .error (.Retrieval (.Source
        { contextUrl := "https://example.com/advisories/",
          url := "https://example.com/advisories/test-2024-001.json" }
        (.http (.Fetcher (.RateLimited 3600))))) := by
  refine ⟨?_, ?_, ?_⟩
  · have h := (c5_allowed_client_errors [404] "/base"
      { contextUrl := "https://example.com/advisories/",
        url := "https://example.com/advisories/test-2024-001.json" } 404).1
      "test-2024-001.json" (by decide) (by decide)
    exact h.trans (by rfl)
  · exact (c5_allowed_client_errors [] "/base"
      { contextUrl := "https://example.com/advisories/",
        url := "https://example.com/advisories/test-2024-001.json" } 404).2.1
      (by decide)
  · exact (c5_allowed_client_errors [404] "/base"
      { contextUrl := "https://example.com/advisories/",
        url := "https://example.com/advisories/test-2024-001.json" } 404).2.2
      (.Source
        { contextUrl := "https://example.com/advisories/",
          url := "https://example.com/advisories/test-2024-001.json" }
        (.http (.Fetcher (.RateLimited 3600)))) (by decide)

/-- From `walker_common::changes` as consumed by
`src/sbom/src/source/http.rs`: one line of the change feed — a relative file
name and its modification timestamp (seconds since the epoch). -/
structure ChangeEntry where
  file : String
  timestamp : Nat
deriving Repr, DecidableEq

/-- From `src/sbom/src/discover.rs` as used by both sources: a discovered
document with its URL and modification time. -/
structure DiscoveredSbom where
  url : String
  modified : Nat
deriving Repr, DecidableEq

/-- Rust `str::ends_with`, expressed on the character lists of the model. -/
def strEndsWith (s suffix : String) : Bool :=
  suffix.data.isSuffixOf s.data

/-- From `src/sbom/src/source/http.rs`, `HttpSource::load_index`: the
distribution base must end in a slash; append one when missing. -/
def HttpSource.base_url (url : String) : String :=
  if strEndsWith url "/" then url else url ++ "/"

/-- From `src/sbom/src/source/http.rs`, `HttpSource::load_index`: map each
change-feed entry to a discovered document (URL joined onto the base,
modelled as concatenation since the entries are relative paths) and keep it
only when its modification time is not before the configured `since`. -/
def HttpSource.load_index (url : String) (entries : List ChangeEntry)
    (since : Option Nat) : List DiscoveredSbom :=
  let base := HttpSource.base_url url
  (entries.map fun e => DiscoveredSbom.mk (base ++ e.file) e.timestamp).filter
    fun d =>
      match since with
      | some s => decide (s ≤ d.modified)
      | none => true

/-- From `src/sbom/src/source/file.rs`, `FileSource::load_index`: the sidecar
extensions skipped while scanning the base directory.  Note the list has
exactly three entries — `.errors` is absent. -/
def FileSource.SKIP : List String := [".asc", ".sha256", ".sha512"]

/-- A directory entry as seen by `FileSource::load_index`: its file name,
whether it is a regular file, and its modification time. -/
structure DirEntry where
  name : String
  isFile : Bool
  modified : Nat
deriving Repr, DecidableEq

/-- The `Url::from_file_path` conversion, modelled as prefixing the file
scheme. -/
def fileUrl (name : String) : String := "file:///" ++ name

/-- From `src/sbom/src/source/file.rs`, `FileSource::load_index`, the body of
the directory loop for one entry: skip non-files, skip names ending in one of
the `SKIP` extensions, skip entries modified strictly before `since`, and
otherwise produce the discovered document. -/
def FileSource.keep_entry (since : Option Nat) (e : DirEntry) :
    Option DiscoveredSbom :=
  if !e.isFile then none
  else if FileSource.SKIP.any (fun ext => strEndsWith e.name ext) then none
  else
    match since with
    | some s =>
      if e.modified < s then none
      else some (DiscoveredSbom.mk (fileUrl e.name) e.modified)
    | none => some (DiscoveredSbom.mk (fileUrl e.name) e.modified)

/-- From `src/sbom/src/source/file.rs`, `FileSource::load_index`: apply the
per-entry rule to every directory entry in order. -/
def FileSource.load_index (entries : List DirEntry) (since : Option Nat) :
    List DiscoveredSbom :=
  entries.filterMap (FileSource.keep_entry since)

/-- C7: the since filter keeps exactly the documents whose modification time
is at least `since` (equality kept, strictly earlier excluded, everything
kept when `since` is unset) — for the HTTP source as a full membership
characterization of `load_index`, and for the file source through its
per-entry rule (for a regular file that is not a sidecar) together with the
fact that a kept entry appears in the index. -/
theorem c7_since_filter (url : String) (entries : List ChangeEntry)
    (fileEntries : List DirEntry) (since : Option Nat) :
    (∀ d, d ∈ HttpSource.load_index url entries since ↔
      (d ∈ entries.map (fun e =>
          DiscoveredSbom.mk (HttpSource.base_url url ++ e.file) e.timestamp) ∧
        ∀ s, since = some s → s ≤ d.modified)) ∧
    (∀ e : DirEntry, e.isFile = true →
      FileSource.SKIP.any (fun ext => strEndsWith e.name ext) = false →
      ((FileSource.keep_entry since e).isSome ↔
        ∀ s, since = some s → s ≤ e.modified)) ∧
    (∀ e d, e ∈ fileEntries → FileSource.keep_entry since e = some d →
      d ∈ FileSource.load_index fileEntries since) := by
  refine ⟨?_, ?_, ?_⟩
  · intro d
    cases since with
    | none => simp [HttpSource.load_index, List.mem_filter]
    | some s => simp [HttpSource.load_index, List.mem_filter]
  · intro e hfile hskip
    cases since with
    | none => simp [FileSource.keep_entry, hfile, hskip]
    | some s =>
      by_cases hlt : e.modified < s
      · simp [FileSource.keep_entry, hfile, hskip, hlt]
        try omega
      · simp [FileSource.keep_entry, hfile, hskip, hlt]
        try omega
  · intro e d he hd
    exact List.mem_filterMap.mpr ⟨e, he, hd⟩

/-- C7, witness: with `since = 5`, a change entry stamped 5 is kept and one
stamped 4 is dropped by the HTTP source; a regular non-sidecar file stamped 5
is kept by the file source's per-entry rule and appears in the index. -/
theorem c7_since_filter_witness :
    DiscoveredSbom.mk "https://ex/a.json" 5 ∈
      HttpSource.load_index "https://ex" [⟨"a.json", 5⟩, ⟨"b.json", 4⟩] (some 5) ∧
    DiscoveredSbom.mk "https://ex/b.json" 4 ∉
      HttpSource.load_index "https://ex" [⟨"a.json", 5⟩, ⟨"b.json", 4⟩] (some 5) ∧
    (FileSource.keep_entry (some 5) ⟨"doc.json", true, 5⟩).isSome = true ∧
    DiscoveredSbom.mk (fileUrl "doc.json") 5 ∈
      FileSource.load_index [⟨"doc.json", true, 5⟩] (some 5) := by
  refine ⟨?_, ?_, ?_, ?_⟩
  · exact ((c7_since_filter "https://ex" [⟨"a.json", 5⟩, ⟨"b.json", 4⟩] []
      (some 5)).1 (DiscoveredSbom.mk "https://ex/a.json" 5)).mpr
      ⟨by decide, by simp⟩
  · intro hmem
    have h := ((c7_since_filter "https://ex" [⟨"a.json", 5⟩, ⟨"b.json", 4⟩] []
      (some 5)).1 (DiscoveredSbom.mk "https://ex/b.json" 4)).mp hmem
    exact absurd (h.2 5 rfl) (by decide)
  · exact ((c7_since_filter "" [] [] (some 5)).2.1 ⟨"doc.json", true, 5⟩ rfl
      (by decide)).mpr (by simp)
  · exact (c7_since_filter "" [] [⟨"doc.json", true, 5⟩] (some 5)).2.2
      ⟨"doc.json", true, 5⟩ (DiscoveredSbom.mk (fileUrl "doc.json") 5)
      (by decide) (by decide)

/-- A directory listing as the store visitor would leave it after an allowed
404: the document, its error sidecar, and digest and signature sidecars. -/
def c8Listing : List DirEntry :=
  [⟨"doc.json", true, 5⟩, ⟨"doc.json.errors", true, 5⟩,
   ⟨"doc.json.sha256", true, 5⟩, ⟨"doc.json.sha512", true, 5⟩,
   ⟨"doc.json.asc", true, 5⟩]

/-- C8: the skip list of `FileSource::load_index` is only
`.asc`/`.sha256`/`.sha512` — `.errors` is missing from it, so an error
sidecar written for an allowed client error IS surfaced as a discovered
document, while the digest and signature sidecars are skipped.  This
contradicts the documented mirror layout, in which `.errors` is a sidecar
like the others. -/
theorem c8_errors_sidecar_not_skipped :
    FileSource.load_index c8Listing none =
      [DiscoveredSbom.mk (fileUrl "doc.json") 5,
       DiscoveredSbom.mk (fileUrl "doc.json.errors") 5] ∧
    DiscoveredSbom.mk (fileUrl "doc.json.errors") 5 ∈
      FileSource.load_index c8Listing none := by
  constructor
  · decide
  · decide

/-- From `walker_common::retrieve::RetrievingDigest` as used in
`src/sbom/src/source/http.rs`: the expected digest value read from the
sidecar, next to the running digest state.  The state of a cryptographic
digest is a pure function of the byte stream absorbed so far, so it is
modelled by that stream; a concrete hash is then some function of it. -/
structure RetrievingDigestM where
  expected : String
  absorbed : List Nat
deriving Repr, DecidableEq

/-- The `update` call performed per chunk in `FetchingRetrievedSbom::process`:
absorb the chunk into the digest state. -/
def digestUpdate (d : RetrievingDigestM) (chunk : List Nat) : RetrievingDigestM :=
  { d with absorbed := d.absorbed ++ chunk }

/-- From `src/sbom/src/source/http.rs`: the result of
`FetchingRetrievedSbom::process` — accumulated bytes, finished digests, and
the retrieval metadata taken from the `ETag` and `Last-Modified` headers. -/
structure FetchedRetrievedSbomM where
  data : List Nat
  sha256 : Option RetrievingDigestM
  sha512 : Option RetrievingDigestM
  etag : Option String
  lastModification : Option String
deriving Repr, DecidableEq

/-- The chunk loop of `FetchingRetrievedSbom::process`: for each chunk,
update each configured digest with the chunk and append the chunk to the
output buffer. -/
def processChunks :
    List (List Nat) → List Nat → Option RetrievingDigestM →
      Option RetrievingDigestM →
      List Nat × Option RetrievingDigestM × Option RetrievingDigestM
  | [], data, s256, s512 => (data, s256, s512)
  | chunk :: rest, data, s256, s512 =>
    processChunks rest (data ++ chunk) (s256.map (fun d => digestUpdate d chunk))
      (s512.map (fun d => digestUpdate d chunk))

/-- From `src/sbom/src/source/http.rs`, `FetchingRetrievedSbom::process`:
apply `error_for_status`, then run the chunk loop starting from an empty
buffer, and package the result with the response metadata. -/
def sbom_process (s256 s512 : Option RetrievingDigestM) (response : HttpResponse)
    (chunks : List (List Nat)) : Except Nat FetchedRetrievedSbomM :=
  if 400 ≤ response.status ∧ response.status ≤ 599 then .error response.status
  else
    let r := processChunks chunks [] s256 s512
    .ok ⟨r.1, r.2.1, r.2.2, response.etag, response.lastModified⟩

/-- The characters of a string before the first space. -/
def takeUntilSpace : List Char → List Char
  | [] => []
  | c :: cs => if c = ' ' then [] else c :: takeUntilSpace cs

/-- From `src/sbom/src/source/http.rs`, `HttpSource::load_sbom`:
`expected.split(' ').next()` — the segment of the sidecar line before its
first space (the whole line when it has none). -/
def firstSpaceToken (s : String) : String :=
  String.mk (takeUntilSpace s.data)

/-- From `src/sbom/src/source/http.rs`, `HttpSource::load_sbom`: build the
digest accumulator for a sidecar line — the expected value is the first
token, the running state starts fresh. -/
def mkRetrievingDigest (sidecar : String) : RetrievingDigestM :=
  { expected := firstSpaceToken sidecar, absorbed := [] }

/-- The chunk loop appends the concatenation of the chunks to the buffer and
absorbs the same concatenation into each configured digest. -/
theorem processChunks_spec (chunks : List (List Nat)) :
    ∀ data s256 s512, processChunks chunks data s256 s512 =
      (data ++ chunks.flatten,
        s256.map (fun d => { d with absorbed := d.absorbed ++ chunks.flatten }),
        s512.map (fun d => { d with absorbed := d.absorbed ++ chunks.flatten })) := by
  induction chunks with
  | nil =>
    intro data s256 s512
    cases s256 <;> cases s512 <;> simp [processChunks]
  | cons chunk rest ih =>
    intro data s256 s512
    simp only [processChunks]
    rw [ih]
    cases s256 <;> cases s512 <;>
      simp [digestUpdate, List.flatten_cons, List.append_assoc]

/-- Taking characters before the first space recovers a space-free prefix. -/
theorem takeUntilSpace_append (l r : List Char) (h : ∀ c ∈ l, c ≠ ' ') :
    takeUntilSpace (l ++ ' ' :: r) = l := by
  induction l with
  | nil => simp [takeUntilSpace]
  | cons c cs ih =>
    have hc : c ≠ ' ' := h c (by simp)
    simp [takeUntilSpace, hc, ih (fun x hx => h x (by simp [hx]))]

/-- C9: on a non-error response, the body processor returns a buffer equal to
the concatenation of the chunks, for each configured digest the absorbed
stream equals that whole buffer (so the per-chunk incremental digest of any
hash function equals its one-shot digest of the returned buffer), the
expected value is carried through unchanged and never compared; and the
expected value built by `load_sbom` from a sidecar line is the token before
the first space. -/
theorem c9_streaming_digests (response : HttpResponse) (chunks : List (List Nat))
    (sidecar256 sidecar512 : Option String)
    (hok : ¬(400 ≤ response.status ∧ response.status ≤ 599)) :
    sbom_process (sidecar256.map mkRetrievingDigest)
      (sidecar512.map mkRetrievingDigest) response chunks =
      .ok ⟨chunks.flatten,
        sidecar256.map (fun sc => ⟨firstSpaceToken sc, chunks.flatten⟩),
        sidecar512.map (fun sc => ⟨firstSpaceToken sc, chunks.flatten⟩),
        response.etag, response.lastModified⟩ ∧
    (∀ tok rest : String, (∀ c ∈ tok.data, c ≠ ' ') →
      firstSpaceToken (tok ++ " " ++ rest) = tok) := by
  constructor
  · simp only [sbom_process, hok, if_neg, not_false_iff]
    rw [processChunks_spec]
    cases sidecar256 <;> cases sidecar512 <;> simp [mkRetrievingDigest]
  · intro tok rest h
    have hdata : (tok ++ " " ++ rest).data = tok.data ++ ' ' :: rest.data := by
      simp [String.data_append]
    show String.mk (takeUntilSpace (tok ++ " " ++ rest).data) = tok
    rw [hdata, takeUntilSpace_append tok.data rest.data h]

/-- C9, witness: three chunks concatenate to the returned buffer, the
configured SHA-256 accumulator has absorbed exactly that buffer, the
expected value is the first token of the sidecar line `abc def`, and the
metadata is taken from the response headers. -/
theorem c9_streaming_digests_witness :
    sbom_process (some (mkRetrievingDigest "abc def")) none
      { status := 200, etag := some "tag", lastModified := some "lm" }
      [[1, 2], [3], [4, 5, 6]] =
      .ok ⟨[1, 2, 3, 4, 5, 6], some ⟨"abc", [1, 2, 3, 4, 5, 6]⟩, none,
        some "tag", some "lm"⟩ ∧
    firstSpaceToken "abc def" = "abc" := by
  constructor
  · have h := (c9_streaming_digests
      { status := 200, etag := some "tag", lastModified := some "lm" }
      [[1, 2], [3], [4, 5, 6]] (some "abc def") none (by decide)).1
    exact h.trans (by rfl)
  · exact (c9_streaming_digests { status := 200 } [] (some "abc def") none
      (by decide)).2 "abc" "def" (by decide)

end CsafWalker
